import Mathlib

/-!
# K-RBAC: verification of the access-graph resolver and audit chain

Shallow embedding of the K-RBAC repository's RBAC handlers
(`extractGroupsFromBindings`, `extractGroupDetails`, `GetAuditLogsHandler`)
and, where the repository ships only declarations or callers, models built
from the specification (`ResolveEffectivePermissions`, `Append`,
`VerifyChain`).
-/

/-- An RBAC subject, mirroring `rbacv1.Subject` as used by the handlers:
the code compares `Kind` and `Name`; `ns` is the optional namespace
(required only for service accounts). Equality is structural on all
fields. -/
structure Subject where
  kind : String
  name : String
  ns : String
deriving DecidableEq, Repr

/-- A policy rule, mirroring `rbacv1.PolicyRule` restricted to the fields
the spec's data model names. -/
structure PolicyRule where
  apiGroups : List String
  resources : List String
  verbs : List String
  resourceNames : List String
deriving DecidableEq, Repr

/-- Scope of a role reference: `Namespaced` or `Cluster` (spec §3). -/
inductive RoleRefScope where
  | namespaced
  | cluster
deriving DecidableEq, Repr

/-- A role reference `{scope, name}` (spec §3). -/
structure RoleRef where
  scope : RoleRefScope
  name : String
deriving DecidableEq, Repr

/-- A namespaced Role: `{name, namespace, rules}`. -/
structure Role where
  name : String
  ns : String
  rules : List PolicyRule
deriving DecidableEq, Repr

/-- A ClusterRole: `{name, rules}`, no namespace. -/
structure ClusterRole where
  name : String
  rules : List PolicyRule
deriving DecidableEq, Repr

/-- A RoleBinding: `{name, namespace, subjects, roleRef}`. -/
structure RoleBinding where
  name : String
  ns : String
  subjects : List Subject
  roleRef : RoleRef
deriving DecidableEq, Repr

/-- A ClusterRoleBinding: `{name, subjects, roleRef}`. -/
structure ClusterRoleBinding where
  name : String
  subjects : List Subject
  roleRef : RoleRef
deriving DecidableEq, Repr

/-! ## Group extraction (`pkg/handlers/rbac`, from the source)

`extractGroupsFromBindings` in the source collects, into a Go map used as a
set, every subject name with `Kind == rbacv1.GroupKind` (`"Group"`) across
both binding kinds, then ranges over the map to emit a slice. Go map
iteration order is unspecified (the runtime randomizes it), so the emitted
slice is modelled as: the deduplicated key list, up to an arbitrary
permutation chosen by the runtime. -/

/-- Subject test from the source: `subject.Kind == rbacv1.GroupKind`. -/
def isGroupSubject (s : Subject) : Bool :=
  s.kind == "Group"

/-- Subject test from the source (`group_details.go`):
`subject.Kind == rbacv1.GroupKind && subject.Name == groupName`. -/
def isGroupNamed (groupName : String) (s : Subject) : Bool :=
  s.kind == "Group" && s.name == groupName

/-- The key set of the `groupSet` map built by `extractGroupsFromBindings`:
every `subject.Name` with `subject.Kind == "Group"` over the role bindings
followed by the cluster role bindings, deduplicated (Go map keys). -/
def extractGroupsList (roleBindings : List RoleBinding)
    (clusterRoleBindings : List ClusterRoleBinding) : List String :=
  ((roleBindings.flatMap fun rb =>
      (rb.subjects.filter isGroupSubject).map Subject.name) ++
   (clusterRoleBindings.flatMap fun crb =>
      (crb.subjects.filter isGroupSubject).map Subject.name)).dedup

/-- The possible return values of `extractGroupsFromBindings`: ranging over
a Go map yields each key exactly once in an order the runtime chooses, so
the output is any permutation of the deduplicated key list. -/
def GoMapRangeOutput (roleBindings : List RoleBinding)
    (clusterRoleBindings : List ClusterRoleBinding) (out : List String) : Prop :=
  out.Perm (extractGroupsList roleBindings clusterRoleBindings)

/-- Response type of `extractGroupDetails` (`group_details.go`). -/
structure GroupDetailsResponse where
  groupName : String
  roleBindings : List RoleBinding
  clusterRoleBindings : List ClusterRoleBinding
  clusterRoles : List ClusterRole
deriving DecidableEq, Repr

/-- `extractGroupDetails` from `group_details.go`: the nested
`for rb { for subject { if match { append } } }` loops append the binding
once per matching subject; the cluster-role join appends `cr` once per
`(crb, cr)` pair with `cr.Name == crb.RoleRef.Name`. -/
def extractGroupDetails (groupName : String) (roleBindings : List RoleBinding)
    (clusterRoleBindings : List ClusterRoleBinding)
    (clusterRoles : List ClusterRole) : GroupDetailsResponse :=
  let groupRoleBindings := roleBindings.flatMap fun rb =>
    (rb.subjects.filter (isGroupNamed groupName)).map fun _ => rb
  let groupClusterRoleBindings := clusterRoleBindings.flatMap fun crb =>
    (crb.subjects.filter (isGroupNamed groupName)).map fun _ => crb
  let groupClusterRoles := groupClusterRoleBindings.flatMap fun crb =>
    clusterRoles.filter fun cr => cr.name == crb.roleRef.name
  { groupName := groupName
    roleBindings := groupRoleBindings
    clusterRoleBindings := groupClusterRoleBindings
    clusterRoles := groupClusterRoles }

/-! ## Access-graph resolver (spec §4.1)

`ResolveEffectivePermissions` is declared by the spec but its code is not
among the repository files available here, so it is modelled from the
spec's algorithm. -/

/-- A snapshot: the four object collections fetched together (spec §4.1). -/
structure Snapshot where
  roles : List Role
  clusterRoles : List ClusterRole
  roleBindings : List RoleBinding
  clusterRoleBindings : List ClusterRoleBinding
deriving DecidableEq, Repr

/-- Modelled from the spec: the `(scope, rule)` pairs a single RoleBinding
contributes (§4.1). Namespaced RoleRef: rules of the Role with matching
name in the binding's namespace, scoped to that namespace. Cluster
RoleRef: rules of the ClusterRole with matching name, scoped to the
binding's namespace (not `"*"`). A missing referenced role contributes
nothing (skip with diagnostic). -/
def rbPairs (snap : Snapshot) (rb : RoleBinding) : List (String × PolicyRule) :=
  match rb.roleRef.scope with
  | .namespaced =>
      (snap.roles.filter fun r =>
          r.name == rb.roleRef.name && r.ns == rb.ns).flatMap fun r =>
        r.rules.map fun rule => (rb.ns, rule)
  | .cluster =>
      (snap.clusterRoles.filter fun cr =>
          cr.name == rb.roleRef.name).flatMap fun cr =>
        cr.rules.map fun rule => (rb.ns, rule)

/-- Modelled from the spec: the `(scope, rule)` pairs a single
ClusterRoleBinding contributes (§4.1). Cluster RoleRef: rules of the
ClusterRole with matching name, scoped `"*"`. Namespaced RoleRef: invalid
reference, the binding is skipped. -/
def crbPairs (snap : Snapshot) (crb : ClusterRoleBinding) : List (String × PolicyRule) :=
  match crb.roleRef.scope with
  | .namespaced => []
  | .cluster =>
      (snap.clusterRoles.filter fun cr =>
          cr.name == crb.roleRef.name).flatMap fun cr =>
        cr.rules.map fun rule => ("*", rule)

/-- Modelled from the spec: `ResolveEffectivePermissions(subject, snapshot)`
(§4.1), absent from the available source. For every RoleBinding and
ClusterRoleBinding whose subject list contains an entry structurally equal
to `subject`, resolve its roleRef and accumulate the `(scope, rule)` pairs
into a set, deduplicating exact structural duplicates. -/
def ResolveEffectivePermissions (subject : Subject) (snap : Snapshot) :
    Finset (String × PolicyRule) :=
  (((snap.roleBindings.filter fun rb =>
        decide (subject ∈ rb.subjects)).flatMap (rbPairs snap)) ++
   ((snap.clusterRoleBindings.filter fun crb =>
        decide (subject ∈ crb.subjects)).flatMap (crbPairs snap))).toFinset

/-- The declarative reading of the claim: `(scope, rule)` is derived for
`subject` from the snapshot when some binding whose subject list contains
`subject` resolves, under the scoping rules of spec §4.1, to that pair. -/
def contributesPair (subject : Subject) (snap : Snapshot)
    (p : String × PolicyRule) : Prop :=
  (∃ rb ∈ snap.roleBindings, subject ∈ rb.subjects ∧
    ((rb.roleRef.scope = .namespaced ∧
       ∃ r ∈ snap.roles, r.name = rb.roleRef.name ∧ r.ns = rb.ns ∧
         p.1 = rb.ns ∧ p.2 ∈ r.rules) ∨
     (rb.roleRef.scope = .cluster ∧
       ∃ cr ∈ snap.clusterRoles, cr.name = rb.roleRef.name ∧
         p.1 = rb.ns ∧ p.2 ∈ cr.rules))) ∨
  (∃ crb ∈ snap.clusterRoleBindings, subject ∈ crb.subjects ∧
    crb.roleRef.scope = .cluster ∧
      ∃ cr ∈ snap.clusterRoles, cr.name = crb.roleRef.name ∧
        p.1 = "*" ∧ p.2 ∈ cr.rules)

/-! ## Tamper-evident audit chain (spec §4.2)

`Append` and `VerifyChain` are declared by the spec; only the persisted
record shape (`AuditLog` in the handlers package) and the read endpoint
are in the available source, so the chain operations are modelled from the
spec. Following spec §9, the persisted row carries no `previousHash`
column: the previous hash is re-derived by sequence order at verification
time. The digest is modelled as a constructor applied to the canonical
field tuple and the previous digest, which realizes the spec's requirement
that `hash = Digest(canonicalize(record fields) || previousHash)` with a
collision-free digest; the genesis (all-zero) digest is its own
constructor. -/

/-- The canonical field tuple in the spec's fixed canonical ordering:
(sequence, action, resourceKind, resourceName, namespace, actor,
timestamp). -/
structure CanonicalFields where
  sequence : Nat
  action : String
  resourceKind : String
  resourceName : String
  ns : String
  actor : Subject
  timestamp : String
deriving DecidableEq, Repr

/-- Modelled from the spec: a digest is either the fixed genesis digest or
`Digest(canonicalize(fields) || previousHash)`. -/
inductive Digest where
  | genesis
  | node (canon : CanonicalFields) (prev : Digest)
deriving DecidableEq, Repr

/-- A persisted audit record: the spec's `AuditRecord` minus
`previousHash`, which per spec §9 is not stored but re-derived as
`hash(n-1)` at verification time. -/
structure AuditRecord where
  sequence : Nat
  action : String
  resourceKind : String
  resourceName : String
  ns : String
  actor : Subject
  timestamp : String
  hash : Digest
deriving DecidableEq, Repr

/-- The canonical field tuple of a record (everything except `hash`). -/
def canonOf (r : AuditRecord) : CanonicalFields :=
  ⟨r.sequence, r.action, r.resourceKind, r.resourceName, r.ns, r.actor,
   r.timestamp⟩

/-- Input of one `Append` call: the mutation description plus the
timestamp the clock supplies. -/
structure AuditInput where
  action : String
  resourceKind : String
  resourceName : String
  ns : String
  actor : Subject
  timestamp : String
deriving DecidableEq, Repr

/-- Sequence number of the chain tail, or `0` for the empty chain (so the
first record gets sequence 1). -/
def tailSeq (chain : List AuditRecord) : Nat :=
  match chain.getLast? with
  | none => 0
  | some r => r.sequence

/-- Hash of the chain tail, or the genesis digest for the empty chain. -/
def tailHash (chain : List AuditRecord) : Digest :=
  match chain.getLast? with
  | none => Digest.genesis
  | some r => r.hash

/-- Modelled from the spec: `Append` (§4.2, here `AppendRecord` since `Append` is taken in Lean), absent from the available
source. Reads the current tail, constructs the new record with
`sequence = tail.sequence + 1` and `previousHash = tail.hash`, computes
`hash = Digest(canonicalize(fields) || previousHash)` and persists it. -/
def AppendRecord (chain : List AuditRecord) (inp : AuditInput) : List AuditRecord :=
  let seq := tailSeq chain + 1
  let canon : CanonicalFields :=
    ⟨seq, inp.action, inp.resourceKind, inp.resourceName, inp.ns, inp.actor,
     inp.timestamp⟩
  chain ++ [⟨seq, inp.action, inp.resourceKind, inp.resourceName, inp.ns,
            inp.actor, inp.timestamp, Digest.node canon (tailHash chain)⟩]

/-- The chain obtained by appending `inputs` in order to the empty chain. -/
def buildChain (inputs : List AuditInput) : List AuditRecord :=
  inputs.foldl AppendRecord []

/-- Modelled from the spec: the verification walk. Starting from digest
`prev` at sequence `seq`, recompute each record's expected hash with the
same canonicalization and digest rule and compare it to the stored hash;
return the first sequence number where they diverge. -/
def verifyFrom (prev : Digest) (seq : Nat) :
    List AuditRecord → Bool × Option Nat
  | [] => (true, none)
  | r :: rest =>
      if r.hash = Digest.node (canonOf r) prev then
        verifyFrom r.hash (seq + 1) rest
      else
        (false, some seq)

/-- Modelled from the spec: `VerifyChain(fromSeq, toSeq)` (§4.2), absent
from the available source. The chain is stored keyed by sequence (record
with sequence `i` at list position `i - 1`); verification starts from the
stored `fromSeq - 1` record's hash, or genesis if `fromSeq = 1`. A chain
with zero records is trivially valid. -/
def VerifyChain (chain : List AuditRecord) (fromSeq toSeq : Nat) :
    Bool × Option Nat :=
  let prev :=
    if fromSeq = 1 then Digest.genesis
    else ((chain.drop (fromSeq - 2)).head?.elim Digest.genesis (·.hash))
  verifyFrom prev fromSeq ((chain.drop (fromSeq - 1)).take (toSeq + 1 - fromSeq))

/-- A flip of a single field of a persisted record to a given new value. -/
inductive FieldFlip where
  | sequence (v : Nat)
  | action (v : String)
  | resourceKind (v : String)
  | resourceName (v : String)
  | ns (v : String)
  | actor (v : Subject)
  | timestamp (v : String)
  | hash (v : Digest)
deriving DecidableEq, Repr

/-- Apply a single-field flip to a record, leaving every other field as
stored (in particular never recomputing the hash). -/
def applyFlip : FieldFlip → AuditRecord → AuditRecord
  | .sequence v, r => { r with sequence := v }
  | .action v, r => { r with action := v }
  | .resourceKind v, r => { r with resourceKind := v }
  | .resourceName v, r => { r with resourceName := v }
  | .ns v, r => { r with ns := v }
  | .actor v, r => { r with actor := v }
  | .timestamp v, r => { r with timestamp := v }
  | .hash v, r => { r with hash := v }

/-! ## The audit-log read endpoint (`GetAuditLogsHandler`, from the source)

The handler runs `SELECT id, action, resource_name, namespace, timestamp,
hash FROM audit_logs ORDER BY timestamp DESC`, scans each row into an
`AuditLog` value, collects them by `append` into a slice declared as
`var logs []AuditLog` (the nil slice), and writes the slice as the JSON
body of a 200 response. Go's `encoding/json` serializes a nil slice as
`null` and a non-nil slice as an array, so Go slices are modelled with an
explicit nil. -/

/-- A persisted audit row as scanned by the handler: exactly the six
selected columns, mirroring the `AuditLog` struct of the source. -/
structure AuditLog where
  id : Int
  action : String
  resourceName : String
  ns : String
  timestamp : String
  hash : String
deriving DecidableEq, Repr

/-- Timestamp comparison used by `ORDER BY timestamp DESC` on the text
column: `a` sorts before `b` when `a`'s timestamp is the larger. -/
def tsDesc (a b : AuditLog) : Prop :=
  b.timestamp ≤ a.timestamp

instance : DecidableRel tsDesc := fun a b =>
  inferInstanceAs (Decidable (b.timestamp ≤ a.timestamp))

/-- The row sequence the `SELECT ... ORDER BY timestamp DESC` query
returns for a stored table: the rows reordered by descending timestamp. -/
def auditLogsQuery (table : List AuditLog) : List AuditLog :=
  table.insertionSort tsDesc

/-- A Go slice: either the nil slice or a (possibly empty) backed array.
`var logs []AuditLog` starts as `nil`; `append` on nil allocates. -/
inductive GoSlice (α : Type) where
  | nil
  | arr (xs : List α)
deriving DecidableEq, Repr

/-- Go's `append(s, x)`. -/
def GoSlice.push {α : Type} : GoSlice α → α → GoSlice α
  | .nil, x => .arr [x]
  | .arr xs, x => .arr (xs ++ [x])

/-- JSON rendering of one scanned row, with the six exposed fields in
struct-tag order. -/
def auditLogJson (r : AuditLog) : String :=
  "\x7b\"id\":" ++ toString r.id ++ ",\"action\":\"" ++ r.action ++
  "\",\"resource_name\":\"" ++ r.resourceName ++ "\",\"namespace\":\"" ++
  r.ns ++ "\",\"timestamp\":\"" ++ r.timestamp ++ "\",\"hash\":\"" ++
  r.hash ++ "\"\x7d"

/-- Go `encoding/json` serialization of a slice: the nil slice marshals to
`null`, a non-nil slice to a JSON array. -/
def goSliceJson (s : GoSlice AuditLog) : String :=
  match s with
  | .nil => "null"
  | .arr xs => "[" ++ String.intercalate "," (xs.map auditLogJson) ++ "]"

/-- An HTTP response as produced by `c.JSON(status, body)`. -/
structure HttpResponse where
  status : Nat
  body : String
deriving DecidableEq, Repr

/-- `GetAuditLogsHandler` from the source: on query failure respond 500;
otherwise scan the ordered rows into the (initially nil) `logs` slice and
respond 200 with its JSON serialization. -/
def GetAuditLogsHandler (queryResult : Option (List AuditLog)) : HttpResponse :=
  match queryResult with
  | none => ⟨500, "\"error\":\"Failed to retrieve audit logs\""⟩
  | some table =>
      let logs := (auditLogsQuery table).foldl GoSlice.push GoSlice.nil
      ⟨200, goSliceJson logs⟩

/-! ## Theorems: group extraction -/

/-- Membership in the deduplicated group-name list. -/
lemma mem_extractGroupsList (rbs : List RoleBinding)
    (crbs : List ClusterRoleBinding) (n : String) :
    n ∈ extractGroupsList rbs crbs ↔
      (∃ rb ∈ rbs, ∃ s ∈ rb.subjects, s.kind = "Group" ∧ s.name = n) ∨
      (∃ crb ∈ crbs, ∃ s ∈ crb.subjects, s.kind = "Group" ∧ s.name = n) := by
  simp only [extractGroupsList, List.mem_dedup, List.mem_append,
    List.mem_flatMap, List.mem_map, List.mem_filter, isGroupSubject,
    beq_iff_eq]
  constructor
  · rintro (⟨rb, hrb, s, ⟨hs, hk⟩, hn⟩ | ⟨crb, hcrb, s, ⟨hs, hk⟩, hn⟩)
    · exact Or.inl ⟨rb, hrb, s, hs, hk, hn⟩
    · exact Or.inr ⟨crb, hcrb, s, hs, hk, hn⟩
  · rintro (⟨rb, hrb, s, hs, hk, hn⟩ | ⟨crb, hcrb, s, hs, hk, hn⟩)
    · exact Or.inl ⟨rb, hrb, s, ⟨hs, hk⟩, hn⟩
    · exact Or.inr ⟨crb, hcrb, s, ⟨hs, hk⟩, hn⟩

/-- Membership in the role-binding list returned by `extractGroupDetails`. -/
lemma mem_extract_roleBindings (g : String) (rbs : List RoleBinding)
    (crbs : List ClusterRoleBinding) (crs : List ClusterRole)
    (rb : RoleBinding) :
    rb ∈ (extractGroupDetails g rbs crbs crs).roleBindings ↔
      rb ∈ rbs ∧ ∃ s ∈ rb.subjects, s.kind = "Group" ∧ s.name = g := by
  simp only [extractGroupDetails, List.mem_flatMap, List.mem_map,
    List.mem_filter, isGroupNamed, Bool.and_eq_true, beq_iff_eq]
  constructor
  · rintro ⟨rb', hrb', s, ⟨hs, hk, hn⟩, rfl⟩
    exact ⟨hrb', s, hs, hk, hn⟩
  · rintro ⟨hrb, s, hs, hk, hn⟩
    exact ⟨rb, hrb, s, ⟨hs, hk, hn⟩, rfl⟩

/-- Membership in the cluster-role-binding list returned by
`extractGroupDetails`. -/
lemma mem_extract_clusterRoleBindings (g : String) (rbs : List RoleBinding)
    (crbs : List ClusterRoleBinding) (crs : List ClusterRole)
    (crb : ClusterRoleBinding) :
    crb ∈ (extractGroupDetails g rbs crbs crs).clusterRoleBindings ↔
      crb ∈ crbs ∧ ∃ s ∈ crb.subjects, s.kind = "Group" ∧ s.name = g := by
  simp only [extractGroupDetails, List.mem_flatMap, List.mem_map,
    List.mem_filter, isGroupNamed, Bool.and_eq_true, beq_iff_eq]
  constructor
  · rintro ⟨crb', hcrb', s, ⟨hs, hk, hn⟩, rfl⟩
    exact ⟨hcrb', s, hs, hk, hn⟩
  · rintro ⟨hcrb, s, hs, hk, hn⟩
    exact ⟨crb, hcrb, s, ⟨hs, hk, hn⟩, rfl⟩

/-- Membership in the cluster-role list returned by `extractGroupDetails`. -/
lemma mem_extract_clusterRoles (g : String) (rbs : List RoleBinding)
    (crbs : List ClusterRoleBinding) (crs : List ClusterRole)
    (cr : ClusterRole) :
    cr ∈ (extractGroupDetails g rbs crbs crs).clusterRoles ↔
      cr ∈ crs ∧ ∃ crb ∈ (extractGroupDetails g rbs crbs crs).clusterRoleBindings,
        cr.name = crb.roleRef.name := by
  simp only [extractGroupDetails, List.mem_flatMap, List.mem_filter,
    beq_iff_eq]
  constructor
  · rintro ⟨crb, hcrb, hcr, hn⟩
    exact ⟨hcr, crb, hcrb, hn⟩
  · rintro ⟨hcr, crb, hcrb, hn⟩
    exact ⟨crb, hcrb, hcr, hn⟩

/-- C4: `extractGroupsFromBindings` returns, in some runtime-chosen order,
exactly the set of names (without duplicates) carried by a `Group`-kind
subject of some RoleBinding or ClusterRoleBinding. -/
theorem extractGroups_exact_group_set (rbs : List RoleBinding)
    (crbs : List ClusterRoleBinding) (out : List String)
    (h : GoMapRangeOutput rbs crbs out) :
    out.Nodup ∧
    ∀ n, n ∈ out ↔
      (∃ rb ∈ rbs, ∃ s ∈ rb.subjects, s.kind = "Group" ∧ s.name = n) ∨
      (∃ crb ∈ crbs, ∃ s ∈ crb.subjects, s.kind = "Group" ∧ s.name = n) := by
  refine ⟨h.nodup_iff.mpr (List.nodup_dedup _), fun n => ?_⟩
  rw [h.mem_iff, mem_extractGroupsList]

/-- C4 witness: a RoleBinding carrying `Group/dev`, with output `["dev"]`. -/
theorem extractGroups_exact_group_set_witness :
    GoMapRangeOutput
        [⟨"rb1", "default", [⟨"Group", "dev", ""⟩], ⟨.cluster, "viewer"⟩⟩]
        [] ["dev"] ∧
      ((["dev"] : List String).Nodup ∧
        ∀ n, n ∈ (["dev"] : List String) ↔
          (∃ rb ∈ [(⟨"rb1", "default", [⟨"Group", "dev", ""⟩],
              ⟨.cluster, "viewer"⟩⟩ : RoleBinding)],
            ∃ s ∈ rb.subjects, s.kind = "Group" ∧ s.name = n) ∨
          (∃ crb ∈ ([] : List ClusterRoleBinding),
            ∃ s ∈ crb.subjects, s.kind = "Group" ∧ s.name = n)) := by
  have h : GoMapRangeOutput
      [⟨"rb1", "default", [⟨"Group", "dev", ""⟩], ⟨.cluster, "viewer"⟩⟩]
      [] ["dev"] := by
    unfold GoMapRangeOutput
    decide
  exact ⟨h, extractGroups_exact_group_set _ _ _ h⟩

/-- C5 counterexample: on a fixed snapshot whose bindings reference the
groups `dev` and `ops`, both `["dev", "ops"]` and `["ops", "dev"]` are
possible outputs of `extractGroupsFromBindings` (Go map iteration order is
runtime-chosen), and they are not byte-identical. -/
theorem extractGroups_not_byte_identical :
    GoMapRangeOutput
        [⟨"rb1", "default", [⟨"Group", "dev", ""⟩, ⟨"Group", "ops", ""⟩],
          ⟨.cluster, "viewer"⟩⟩] [] ["dev", "ops"] ∧
    GoMapRangeOutput
        [⟨"rb1", "default", [⟨"Group", "dev", ""⟩, ⟨"Group", "ops", ""⟩],
          ⟨.cluster, "viewer"⟩⟩] [] ["ops", "dev"] ∧
    (["dev", "ops"] : List String) ≠ ["ops", "dev"] := by
  refine ⟨?_, ?_, by decide⟩ <;> · unfold GoMapRangeOutput; decide

/-- C5 (amended): two runs of `extractGroupsFromBindings` on the same
unchanged snapshot yield the same deduplicated group names up to
reordering (equal as multisets, hence as sets), though not necessarily
byte-identical sequences. -/
theorem extractGroups_runs_agree_up_to_order (rbs : List RoleBinding)
    (crbs : List ClusterRoleBinding) (out₁ out₂ : List String)
    (h₁ : GoMapRangeOutput rbs crbs out₁)
    (h₂ : GoMapRangeOutput rbs crbs out₂) : out₁.Perm out₂ :=
  h₁.trans h₂.symm

/-- C5 witness: two differently ordered runs over the `dev`/`ops`
snapshot are permutations of each other. -/
theorem extractGroups_runs_agree_up_to_order_witness :
    GoMapRangeOutput
        [⟨"rb2", "kube-system", [⟨"Group", "dev", ""⟩],
          ⟨.namespaced, "edit"⟩⟩]
        [⟨"crb1", [⟨"Group", "ops", ""⟩], ⟨.cluster, "admin"⟩⟩]
        ["dev", "ops"] ∧
    GoMapRangeOutput
        [⟨"rb2", "kube-system", [⟨"Group", "dev", ""⟩],
          ⟨.namespaced, "edit"⟩⟩]
        [⟨"crb1", [⟨"Group", "ops", ""⟩], ⟨.cluster, "admin"⟩⟩]
        ["ops", "dev"] ∧
    (["dev", "ops"] : List String).Perm ["ops", "dev"] := by
  have h₁ : GoMapRangeOutput
      [⟨"rb2", "kube-system", [⟨"Group", "dev", ""⟩], ⟨.namespaced, "edit"⟩⟩]
      [⟨"crb1", [⟨"Group", "ops", ""⟩], ⟨.cluster, "admin"⟩⟩]
      ["dev", "ops"] := by
    unfold GoMapRangeOutput; decide
  have h₂ : GoMapRangeOutput
      [⟨"rb2", "kube-system", [⟨"Group", "dev", ""⟩], ⟨.namespaced, "edit"⟩⟩]
      [⟨"crb1", [⟨"Group", "ops", ""⟩], ⟨.cluster, "admin"⟩⟩]
      ["ops", "dev"] := by
    unfold GoMapRangeOutput; decide
  exact ⟨h₁, h₂, extractGroups_runs_agree_up_to_order _ _ _ _ h₁ h₂⟩

/-- C6: `extractGroupDetails` returns exactly the role bindings and
cluster role bindings whose subject list includes a `Group` subject named
`g`, and exactly the cluster roles whose name equals the `roleRef.name`
of one of those returned cluster role bindings. -/
theorem group_details_exact (g : String) (rbs : List RoleBinding)
    (crbs : List ClusterRoleBinding) (crs : List ClusterRole) :
    (∀ rb, rb ∈ (extractGroupDetails g rbs crbs crs).roleBindings ↔
      rb ∈ rbs ∧ ∃ s ∈ rb.subjects, s.kind = "Group" ∧ s.name = g) ∧
    (∀ crb, crb ∈ (extractGroupDetails g rbs crbs crs).clusterRoleBindings ↔
      crb ∈ crbs ∧ ∃ s ∈ crb.subjects, s.kind = "Group" ∧ s.name = g) ∧
    (∀ cr, cr ∈ (extractGroupDetails g rbs crbs crs).clusterRoles ↔
      cr ∈ crs ∧
        ∃ crb ∈ (extractGroupDetails g rbs crbs crs).clusterRoleBindings,
          cr.name = crb.roleRef.name) :=
  ⟨fun rb => mem_extract_roleBindings g rbs crbs crs rb,
   fun crb => mem_extract_clusterRoleBindings g rbs crbs crs crb,
   fun cr => mem_extract_clusterRoles g rbs crbs crs cr⟩

/-- C7: when no binding's subject list contains a `Group` subject named
`g` (bindings with empty subject lists included), `extractGroupDetails`
returns empty lists, and when no binding carries any `Group` subject,
`extractGroupsFromBindings`'s key set is empty; neither code path can
produce an error. -/
theorem no_match_empty_result (g : String) (rbs : List RoleBinding)
    (crbs : List ClusterRoleBinding) (crs : List ClusterRole)
    (h1 : ∀ rb ∈ rbs, ∀ s ∈ rb.subjects, ¬(s.kind = "Group" ∧ s.name = g))
    (h2 : ∀ crb ∈ crbs, ∀ s ∈ crb.subjects,
      ¬(s.kind = "Group" ∧ s.name = g)) :
    ((extractGroupDetails g rbs crbs crs).roleBindings = [] ∧
     (extractGroupDetails g rbs crbs crs).clusterRoleBindings = [] ∧
     (extractGroupDetails g rbs crbs crs).clusterRoles = []) ∧
    (∀ rbs₂ : List RoleBinding, ∀ crbs₂ : List ClusterRoleBinding,
      (∀ rb ∈ rbs₂, ∀ s ∈ rb.subjects, s.kind ≠ "Group") →
      (∀ crb ∈ crbs₂, ∀ s ∈ crb.subjects, s.kind ≠ "Group") →
      extractGroupsList rbs₂ crbs₂ = []) := by
  have hb : (extractGroupDetails g rbs crbs crs).clusterRoleBindings = [] := by
    rw [List.eq_nil_iff_forall_not_mem]
    intro crb hm
    rw [mem_extract_clusterRoleBindings] at hm
    obtain ⟨hcrb, s, hs, hk, hn⟩ := hm
    exact h2 crb hcrb s hs ⟨hk, hn⟩
  refine ⟨⟨?_, hb, ?_⟩, ?_⟩
  · rw [List.eq_nil_iff_forall_not_mem]
    intro rb hm
    rw [mem_extract_roleBindings] at hm
    obtain ⟨hrb, s, hs, hk, hn⟩ := hm
    exact h1 rb hrb s hs ⟨hk, hn⟩
  · rw [List.eq_nil_iff_forall_not_mem]
    intro cr hm
    rw [mem_extract_clusterRoles] at hm
    obtain ⟨_, crb, hcrb, _⟩ := hm
    rw [hb] at hcrb
    exact absurd hcrb (List.not_mem_nil _)
  · intro rbs₂ crbs₂ hg1 hg2
    rw [List.eq_nil_iff_forall_not_mem]
    intro n hm
    rw [mem_extractGroupsList] at hm
    rcases hm with ⟨rb, hrb, s, hs, hk, _⟩ | ⟨crb, hcrb, s, hs, hk, _⟩
    · exact hg1 rb hrb s hs hk
    · exact hg2 crb hcrb s hs hk

/-- C7 witness: a query for `dev` against a RoleBinding with an empty
subject list and a ClusterRoleBinding naming only `User/alice`. -/
theorem no_match_empty_result_witness :
    (∀ rb ∈ [(⟨"rb1", "default", [], ⟨.cluster, "viewer"⟩⟩ : RoleBinding)],
      ∀ s ∈ rb.subjects, ¬(s.kind = "Group" ∧ s.name = "dev")) ∧
    (∀ crb ∈ [(⟨"crb1", [⟨"User", "alice", ""⟩],
        ⟨.cluster, "admin"⟩⟩ : ClusterRoleBinding)],
      ∀ s ∈ crb.subjects, ¬(s.kind = "Group" ∧ s.name = "dev")) ∧
    ((extractGroupDetails "dev"
        [⟨"rb1", "default", [], ⟨.cluster, "viewer"⟩⟩]
        [⟨"crb1", [⟨"User", "alice", ""⟩], ⟨.cluster, "admin"⟩⟩]
        [⟨"viewer", []⟩]).roleBindings = [] ∧
     (extractGroupDetails "dev"
        [⟨"rb1", "default", [], ⟨.cluster, "viewer"⟩⟩]
        [⟨"crb1", [⟨"User", "alice", ""⟩], ⟨.cluster, "admin"⟩⟩]
        [⟨"viewer", []⟩]).clusterRoleBindings = [] ∧
     (extractGroupDetails "dev"
        [⟨"rb1", "default", [], ⟨.cluster, "viewer"⟩⟩]
        [⟨"crb1", [⟨"User", "alice", ""⟩], ⟨.cluster, "admin"⟩⟩]
        [⟨"viewer", []⟩]).clusterRoles = []) ∧
    (∀ rbs₂ : List RoleBinding, ∀ crbs₂ : List ClusterRoleBinding,
      (∀ rb ∈ rbs₂, ∀ s ∈ rb.subjects, s.kind ≠ "Group") →
      (∀ crb ∈ crbs₂, ∀ s ∈ crb.subjects, s.kind ≠ "Group") →
      extractGroupsList rbs₂ crbs₂ = []) := by
  have h1 : ∀ rb ∈ [(⟨"rb1", "default", [],
      ⟨.cluster, "viewer"⟩⟩ : RoleBinding)],
      ∀ s ∈ rb.subjects, ¬(s.kind = "Group" ∧ s.name = "dev") := by decide
  have h2 : ∀ crb ∈ [(⟨"crb1", [⟨"User", "alice", ""⟩],
      ⟨.cluster, "admin"⟩⟩ : ClusterRoleBinding)],
      ∀ s ∈ crb.subjects, ¬(s.kind = "Group" ∧ s.name = "dev") := by decide
  obtain ⟨ha, hc⟩ := no_match_empty_result "dev"
    [⟨"rb1", "default", [], ⟨.cluster, "viewer"⟩⟩]
    [⟨"crb1", [⟨"User", "alice", ""⟩], ⟨.cluster, "admin"⟩⟩]
    [⟨"viewer", []⟩] h1 h2
  exact ⟨h1, h2, ha, hc⟩

/-- Counting occurrences in an append-once-per-matching-subject loop:
an element appears once per copy of it in the input times its number of
matching subject entries. -/
lemma count_once_per_match {α β : Type} [DecidableEq α] (p : β → Bool)
    (subj : α → List β) (xs : List α) (a : α) :
    (xs.flatMap fun x => ((subj x).filter p).map fun _ => x).count a =
      xs.count a * ((subj a).filter p).length := by
  induction xs with
  | nil => simp
  | cons x xs ih =>
      rw [List.flatMap_cons, List.count_append, ih, List.count_cons,
        List.map_const', List.count_replicate]
      by_cases hax : x = a
      · subst hax
        simp only [beq_self_eq_true, if_pos]
        ring
      · simp only [beq_eq_false_iff_ne, ne_eq, hax, not_false_eq_true,
          beq_iff_eq, if_neg]
        ring

/-- C9: each binding appears in `extractGroupDetails`'s output once per
subject entry matching `Group`/`g` that it contains; in particular a
binding listing the group subject twice appears twice. -/
theorem binding_appears_once_per_subject (g : String)
    (rbs : List RoleBinding) (crbs : List ClusterRoleBinding)
    (crs : List ClusterRole) (rb : RoleBinding)
    (crb : ClusterRoleBinding) :
    ((extractGroupDetails g rbs crbs crs).roleBindings.count rb =
      rbs.count rb * (rb.subjects.filter (isGroupNamed g)).length) ∧
    ((extractGroupDetails g rbs crbs crs).clusterRoleBindings.count crb =
      crbs.count crb * (crb.subjects.filter (isGroupNamed g)).length) ∧
    ((extractGroupDetails "dev"
        [⟨"rb1", "default", [⟨"Group", "dev", ""⟩, ⟨"Group", "dev", ""⟩],
          ⟨.cluster, "viewer"⟩⟩] [] []).roleBindings =
      [⟨"rb1", "default", [⟨"Group", "dev", ""⟩, ⟨"Group", "dev", ""⟩],
        ⟨.cluster, "viewer"⟩⟩,
       ⟨"rb1", "default", [⟨"Group", "dev", ""⟩, ⟨"Group", "dev", ""⟩],
        ⟨.cluster, "viewer"⟩⟩]) :=
  ⟨count_once_per_match (isGroupNamed g) RoleBinding.subjects rbs rb,
   count_once_per_match (isGroupNamed g) ClusterRoleBinding.subjects crbs crb,
   by decide⟩

/-! ## Theorems: audit-log read endpoint -/

instance : IsTotal AuditLog tsDesc :=
  ⟨fun a b => le_total b.timestamp a.timestamp⟩

instance : IsTrans AuditLog tsDesc :=
  ⟨fun _ _ _ h₁ h₂ => le_trans h₂ h₁⟩

/-- C8: the read endpoint's row sequence is the stored records reordered
by descending timestamp (a permutation, so exactly the stored records),
and the 200 response body serializes those rows, each rendered with
exactly the six selected fields. -/
theorem audit_endpoint_ordered_desc (table : List AuditLog) :
    (auditLogsQuery table).Perm table ∧
    List.Sorted tsDesc (auditLogsQuery table) ∧
    GetAuditLogsHandler (some table) =
      ⟨200, goSliceJson
        ((auditLogsQuery table).foldl GoSlice.push GoSlice.nil)⟩ :=
  ⟨List.perm_insertionSort tsDesc table,
   List.sorted_insertionSort tsDesc table, rfl⟩

/-- C10: with zero stored records and a successful query, the handler
responds 200 with body `null` (the Go nil-slice serialization), not an
empty array and not an error. -/
theorem empty_store_responds_null :
    GetAuditLogsHandler (some []) = ⟨200, "null"⟩ ∧
    goSliceJson (GoSlice.arr []) = "[]" := by
  constructor <;> rfl

/-! ## Theorems: audit chain -/

/-- Well-formedness of a chain segment: starting at digest `prev` and
sequence `seq`, every record carries the expected sequence number and the
recomputed hash of its canonical fields chained to its predecessor. -/
def ChainOk (prev : Digest) (seq : Nat) : List AuditRecord → Prop
  | [] => True
  | r :: rest =>
      r.sequence = seq ∧ r.hash = Digest.node (canonOf r) prev ∧
        ChainOk r.hash (seq + 1) rest

/-- The digest reached after walking a chain segment from `prev`:
the last record's hash, or `prev` for the empty segment. -/
def chainEndHash (prev : Digest) : List AuditRecord → Digest
  | [] => prev
  | r :: rest => chainEndHash r.hash rest

/-- Appending a correctly linked record preserves well-formedness. -/
lemma ChainOk.snoc {prev : Digest} {seq : Nat} {chain : List AuditRecord}
    {r : AuditRecord} (h : ChainOk prev seq chain)
    (hseq : r.sequence = seq + chain.length)
    (hhash : r.hash = Digest.node (canonOf r) (chainEndHash prev chain)) :
    ChainOk prev seq (chain ++ [r]) := by
  induction chain generalizing prev seq with
  | nil => exact ⟨by simpa using hseq, hhash, trivial⟩
  | cons c rest ih =>
      obtain ⟨h1, h2, h3⟩ := h
      refine ⟨h1, h2, ih h3 ?_ hhash⟩
      simp only [List.length_cons] at hseq
      omega

/-- On a well-formed chain the stored tail agrees with the walk: the last
sequence number is `seq + length - 1` and the last hash is the end hash. -/
lemma ChainOk.tail_eq {prev : Digest} {seq : Nat} {chain : List AuditRecord}
    (h : ChainOk prev seq chain) (hne : chain ≠ []) :
    tailSeq chain = seq + chain.length - 1 ∧
      tailHash chain = chainEndHash prev chain := by
  induction chain generalizing prev seq with
  | nil => exact absurd rfl hne
  | cons c rest ih =>
      obtain ⟨h1, h2, h3⟩ := h
      cases rest with
      | nil =>
          refine ⟨?_, ?_⟩
          · simp [tailSeq, h1]
          · simp [tailHash, chainEndHash]
      | cons d rest2 =>
          obtain ⟨ha, hb⟩ := ih h3 (by simp)
          refine ⟨?_, ?_⟩
          · rw [tailSeq] at ha ⊢
            simp only [List.getLast?_cons_cons] at ha ⊢
            rw [ha]
            simp only [List.length_cons]
            omega
          · show tailHash (c :: d :: rest2) = chainEndHash c.hash (d :: rest2)
            rw [← hb]
            simp only [tailHash, List.getLast?_cons_cons]

/-- Unfolding of `AppendRecord`: the chain extended by the record built
from the tail. -/
lemma appendRecord_def (chain : List AuditRecord) (inp : AuditInput) :
    AppendRecord chain inp = chain ++
      [⟨tailSeq chain + 1, inp.action, inp.resourceKind, inp.resourceName,
        inp.ns, inp.actor, inp.timestamp,
        Digest.node ⟨tailSeq chain + 1, inp.action, inp.resourceKind,
          inp.resourceName, inp.ns, inp.actor, inp.timestamp⟩
          (tailHash chain)⟩] := rfl

/-- `AppendRecord` preserves well-formedness of the whole chain. -/
lemma appendRecord_ok {chain : List AuditRecord} {inp : AuditInput}
    (h : ChainOk Digest.genesis 1 chain) :
    ChainOk Digest.genesis 1 (AppendRecord chain inp) := by
  rw [appendRecord_def]
  by_cases hne : chain = []
  · subst hne
    exact ⟨rfl, rfl, trivial⟩
  · obtain ⟨ha, hb⟩ := h.tail_eq hne
    refine h.snoc ?_ ?_
    · show tailSeq chain + 1 = 1 + chain.length
      rw [ha]
      have hlen : chain.length ≠ 0 := fun h0 => hne (List.length_eq_zero.mp h0)
      omega
    · show Digest.node _ (tailHash chain) =
        Digest.node _ (chainEndHash Digest.genesis chain)
      rw [hb]
      rfl

/-- Every chain built by appending to the empty chain is well-formed. -/
lemma buildChain_ok (inputs : List AuditInput) :
    ChainOk Digest.genesis 1 (buildChain inputs) := by
  have hstep : ∀ (l : List AuditInput) (chain : List AuditRecord),
      ChainOk Digest.genesis 1 chain →
      ChainOk Digest.genesis 1 (l.foldl AppendRecord chain) := by
    intro l
    induction l with
    | nil => intro chain h; exact h
    | cons i rest ih =>
        intro chain h
        exact ih (AppendRecord chain i) (appendRecord_ok h)
  exact hstep inputs [] trivial

/-- On a well-formed chain, the record at position `i` has sequence
`seq + i`. -/
lemma chainOk_seq_get {prev : Digest} {seq : Nat} {chain : List AuditRecord}
    (h : ChainOk prev seq chain) :
    ∀ i r, chain[i]? = some r → r.sequence = seq + i := by
  induction chain generalizing prev seq with
  | nil => intro i r hi; simp at hi
  | cons c rest ih =>
      intro i r hi
      cases i with
      | zero =>
          rw [List.getElem?_cons_zero, Option.some_inj] at hi
          subst hi
          simpa using h.1
      | succ n =>
          rw [List.getElem?_cons_succ] at hi
          have := ih h.2.2 n r hi
          omega

/-- On a well-formed chain, the first record's hash chains to `prev`. -/
lemma chainOk_head_hash {prev : Digest} {seq : Nat}
    {chain : List AuditRecord} (h : ChainOk prev seq chain) :
    ∀ r, chain[0]? = some r → r.hash = Digest.node (canonOf r) prev := by
  cases chain with
  | nil => intro r hi; simp at hi
  | cons c rest =>
      intro r hi
      rw [List.getElem?_cons_zero, Option.some_inj] at hi
      subst hi
      exact h.2.1

/-- On a well-formed chain, each record's hash chains to the preceding
record's hash. -/
lemma chainOk_link {prev : Digest} {seq : Nat} {chain : List AuditRecord}
    (h : ChainOk prev seq chain) :
    ∀ i r r', chain[i]? = some r → chain[i + 1]? = some r' →
      r'.hash = Digest.node (canonOf r') r.hash := by
  induction chain generalizing prev seq with
  | nil => intro i r r' hi; simp at hi
  | cons c rest ih =>
      intro i r r' hi hi'
      cases i with
      | zero =>
          rw [List.getElem?_cons_zero, Option.some_inj] at hi
          rw [List.getElem?_cons_succ] at hi'
          subst hi
          exact chainOk_head_hash h.2.2 r' hi'
      | succ n =>
          rw [List.getElem?_cons_succ] at hi hi'
          exact ih h.2.2 n r r' hi hi'

/-- Verification succeeds on a well-formed chain segment. -/
lemma verifyFrom_ok {prev : Digest} {seq : Nat} {chain : List AuditRecord}
    (h : ChainOk prev seq chain) :
    verifyFrom prev seq chain = (true, none) := by
  induction chain generalizing prev seq with
  | nil => rfl
  | cons c rest ih =>
      rw [verifyFrom, if_pos h.2.1]
      exact ih h.2.2

/-- A single-field flip that changes a correctly linked record makes its
stored hash disagree with the recomputed hash. -/
lemma applyFlip_breaks {r : AuditRecord} {prev : Digest}
    (hlink : r.hash = Digest.node (canonOf r) prev) (f : FieldFlip)
    (hne : applyFlip f r ≠ r) :
    ¬(applyFlip f r).hash = Digest.node (canonOf (applyFlip f r)) prev := by
  obtain ⟨s, a, k, n, ns, act, t, hsh⟩ := r
  cases f <;> simp_all [applyFlip, canonOf] <;>
    exact fun hx => hne hx.symm

/-- Flipping a single field of the record at position `k` of a
well-formed chain segment makes the walk fail exactly at `seq + k`. -/
lemma verifyFrom_flip {prev : Digest} {seq : Nat} {chain : List AuditRecord}
    (h : ChainOk prev seq chain) :
    ∀ (k : Nat) (hk : k < chain.length) (f : FieldFlip),
      applyFlip f (chain.get ⟨k, hk⟩) ≠ chain.get ⟨k, hk⟩ →
      verifyFrom prev seq (chain.set k (applyFlip f (chain.get ⟨k, hk⟩))) =
        (false, some (seq + k)) := by
  induction chain generalizing prev seq with
  | nil => intro k hk; simp at hk
  | cons c rest ih =>
      intro k hk f hne
      cases k with
      | zero =>
          have hc : (c :: rest).get ⟨0, hk⟩ = c := rfl
          rw [hc] at hne ⊢
          rw [List.set_cons_zero, verifyFrom,
            if_neg (applyFlip_breaks h.2.1 f hne)]
          simp
      | succ n =>
          have hn : n < rest.length := by
            simp only [List.length_cons] at hk
            omega
          have hg : (c :: rest).get ⟨n + 1, hk⟩ = rest.get ⟨n, hn⟩ := rfl
          rw [hg] at hne ⊢
          rw [List.set_cons_succ, verifyFrom, if_pos h.2.1,
            ih h.2.2 n hn f hne]
          simp only [Prod.mk.injEq, Option.some_inj, true_and]
          omega

/-- `VerifyChain` over the whole chain is the walk from genesis at
sequence 1. -/
lemma VerifyChain_full (chain : List AuditRecord) (n : Nat)
    (hn : n = chain.length) :
    VerifyChain chain 1 n = verifyFrom Digest.genesis 1 chain := by
  subst hn
  unfold VerifyChain
  simp [List.take_length]

/-- C3: after any sequence of successful appends starting from the empty
chain, the record at position `i` has sequence `i + 1` (strictly
increasing, gap-free, starting at 1); the first record's hash chains to
the genesis digest; and every later record's hash is the digest of its
canonical fields chained to the preceding record's hash, so that each
record's hash is a pure function of its (derived) previous hash and its
other fields. -/
theorem audit_chain_invariants (inputs : List AuditInput) :
    (∀ i r, (buildChain inputs)[i]? = some r → r.sequence = i + 1) ∧
    (∀ r, (buildChain inputs)[0]? = some r →
      r.hash = Digest.node (canonOf r) Digest.genesis) ∧
    (∀ i r r', (buildChain inputs)[i]? = some r →
      (buildChain inputs)[i + 1]? = some r' →
      r'.hash = Digest.node (canonOf r') r.hash) := by
  have h := buildChain_ok inputs
  refine ⟨fun i r hi => ?_, chainOk_head_hash h, chainOk_link h⟩
  have := chainOk_seq_get h i r hi
  omega

/-- Sample actor for the audit-chain witnesses. -/
def actorAlice : Subject := ⟨"User", "alice", ""⟩

/-- Sample append inputs for the audit-chain witnesses. -/
def inpA : AuditInput := ⟨"create", "Role", "r1", "default", actorAlice, "t1"⟩

def inpB : AuditInput := ⟨"update", "Role", "r1", "default", actorAlice, "t2"⟩

def inpC : AuditInput := ⟨"delete", "Role", "r1", "default", actorAlice, "t3"⟩

/-- C3 witness: on the two-record chain built from `inpA, inpB`, record 2
carries sequence 2 and its hash chains to record 1's hash. -/
theorem audit_chain_invariants_witness :
    (buildChain [inpA, inpB])[0]? =
      some ⟨1, "create", "Role", "r1", "default", actorAlice, "t1",
        Digest.node ⟨1, "create", "Role", "r1", "default", actorAlice, "t1"⟩
          Digest.genesis⟩ ∧
    (buildChain [inpA, inpB])[1]? =
      some ⟨2, "update", "Role", "r1", "default", actorAlice, "t2",
        Digest.node ⟨2, "update", "Role", "r1", "default", actorAlice, "t2"⟩
          (Digest.node
            ⟨1, "create", "Role", "r1", "default", actorAlice, "t1"⟩
            Digest.genesis)⟩ ∧
    (⟨2, "update", "Role", "r1", "default", actorAlice, "t2",
        Digest.node ⟨2, "update", "Role", "r1", "default", actorAlice, "t2"⟩
          (Digest.node
            ⟨1, "create", "Role", "r1", "default", actorAlice, "t1"⟩
            Digest.genesis)⟩ : AuditRecord).hash =
      Digest.node
        (canonOf ⟨2, "update", "Role", "r1", "default", actorAlice, "t2",
          Digest.node
            ⟨2, "update", "Role", "r1", "default", actorAlice, "t2"⟩
            (Digest.node
              ⟨1, "create", "Role", "r1", "default", actorAlice, "t1"⟩
              Digest.genesis)⟩)
        (⟨1, "create", "Role", "r1", "default", actorAlice, "t1",
          Digest.node
            ⟨1, "create", "Role", "r1", "default", actorAlice, "t1"⟩
            Digest.genesis⟩ : AuditRecord).hash := by
  refine ⟨by decide, by decide, ?_⟩
  exact (audit_chain_invariants [inpA, inpB]).2.2 0 _ _ (by decide) (by decide)

/-- C2: `VerifyChain(1, n)` over an unmodified `n`-record chain reports
`ok = true`; flipping any single field of any one stored record `k`
(without recomputing its hash) makes `VerifyChain(1, n)` report
`ok = false` with first divergence exactly `k`; and a chain with zero
records is trivially valid. -/
theorem verify_chain_detects_single_flip (inputs : List AuditInput) :
    VerifyChain (buildChain inputs) 1 (buildChain inputs).length =
      (true, none) ∧
    (∀ (k : Nat) (f : FieldFlip), 1 ≤ k →
      ∀ hk : k - 1 < (buildChain inputs).length,
      applyFlip f ((buildChain inputs).get ⟨k - 1, hk⟩) ≠
        (buildChain inputs).get ⟨k - 1, hk⟩ →
      VerifyChain ((buildChain inputs).set (k - 1)
          (applyFlip f ((buildChain inputs).get ⟨k - 1, hk⟩)))
        1 (buildChain inputs).length = (false, some k)) ∧
    VerifyChain [] 1 0 = (true, none) := by
  have h := buildChain_ok inputs
  refine ⟨?_, ?_, rfl⟩
  · rw [VerifyChain_full _ _ rfl]
    exact verifyFrom_ok h
  · intro k f hk1 hk hne
    rw [VerifyChain_full _ _ (by rw [List.length_set])]
    rw [verifyFrom_flip h (k - 1) hk f hne]
    simp only [Prod.mk.injEq, Option.some_inj, true_and]
    omega

/-- C2 witness (spec §8 Scenario 4): on the three-record chain built from
`inpA, inpB, inpC`, flipping stored record 2's `resourceName` without
recomputing its hash makes `VerifyChain(1, 3)` report
`(ok = false, firstDivergence = 2)`. -/
theorem verify_chain_detects_single_flip_witness :
    (1 ≤ 2) ∧
    applyFlip (.resourceName "tampered")
        ((buildChain [inpA, inpB, inpC]).get ⟨2 - 1, by decide⟩) ≠
      (buildChain [inpA, inpB, inpC]).get ⟨2 - 1, by decide⟩ ∧
    VerifyChain ((buildChain [inpA, inpB, inpC]).set (2 - 1)
        (applyFlip (.resourceName "tampered")
          ((buildChain [inpA, inpB, inpC]).get ⟨2 - 1, by decide⟩)))
      1 (buildChain [inpA, inpB, inpC]).length = (false, some 2) := by
  refine ⟨by decide, by decide, ?_⟩
  exact (verify_chain_detects_single_flip [inpA, inpB, inpC]).2.1 2
    (.resourceName "tampered") (by decide) (by decide) (by decide)

/-! ## Theorems: access-graph resolver -/

/-- Membership in the pairs contributed by one RoleBinding. -/
lemma mem_rbPairs (snap : Snapshot) (rb : RoleBinding)
    (p : String × PolicyRule) :
    p ∈ rbPairs snap rb ↔
      (rb.roleRef.scope = .namespaced ∧
        ∃ r ∈ snap.roles, r.name = rb.roleRef.name ∧ r.ns = rb.ns ∧
          p.1 = rb.ns ∧ p.2 ∈ r.rules) ∨
      (rb.roleRef.scope = .cluster ∧
        ∃ cr ∈ snap.clusterRoles, cr.name = rb.roleRef.name ∧
          p.1 = rb.ns ∧ p.2 ∈ cr.rules) := by
  obtain ⟨ns, rule⟩ := p
  cases hs : rb.roleRef.scope <;>
    simp [rbPairs, hs, List.mem_flatMap, List.mem_filter, List.mem_map,
      Prod.ext_iff, and_assoc, beq_iff_eq] <;>
    aesop

/-- Membership in the pairs contributed by one ClusterRoleBinding. -/
lemma mem_crbPairs (snap : Snapshot) (crb : ClusterRoleBinding)
    (p : String × PolicyRule) :
    p ∈ crbPairs snap crb ↔
      crb.roleRef.scope = .cluster ∧
        ∃ cr ∈ snap.clusterRoles, cr.name = crb.roleRef.name ∧
          p.1 = "*" ∧ p.2 ∈ cr.rules := by
  obtain ⟨ns, rule⟩ := p
  cases hs : crb.roleRef.scope <;>
    simp [crbPairs, hs, List.mem_flatMap, List.mem_filter, List.mem_map,
      Prod.ext_iff, beq_iff_eq]
  aesop

/-- Membership in the resolver's result is exactly the declarative
derivation predicate. -/
lemma mem_resolve (subject : Subject) (snap : Snapshot)
    (p : String × PolicyRule) :
    p ∈ ResolveEffectivePermissions subject snap ↔
      contributesPair subject snap p := by
  simp only [ResolveEffectivePermissions, List.mem_toFinset,
    List.mem_append, List.mem_flatMap, List.mem_filter,
    decide_eq_true_eq, contributesPair, mem_rbPairs, mem_crbPairs]
  constructor
  · rintro (⟨rb, ⟨hrb, hsub⟩, hp⟩ | ⟨crb, ⟨hcrb, hsub⟩, hc, hp⟩)
    · exact Or.inl ⟨rb, hrb, hsub, hp⟩
    · exact Or.inr ⟨crb, hcrb, hsub, hc, hp⟩
  · rintro (⟨rb, hrb, hsub, hp⟩ | ⟨crb, hcrb, hsub, hc, hp⟩)
    · exact Or.inl ⟨rb, ⟨hrb, hsub⟩, hp⟩
    · exact Or.inr ⟨crb, ⟨hcrb, hsub⟩, hc, hp⟩

/-- C1: the resolver's result is exactly the deduplicated set of
`(scope, rule)` pairs derived from the bindings whose subject list
contains an entry structurally equal to the queried subject (a RoleBinding
with a Cluster roleRef contributing the referenced ClusterRole's rules
scoped to the binding's own namespace), and the result is unchanged under
any reordering of the snapshot's object collections. -/
theorem resolve_effective_permissions_correct (subject : Subject)
    (snap snap' : Snapshot)
    (hr : snap'.roles.Perm snap.roles)
    (hcr : snap'.clusterRoles.Perm snap.clusterRoles)
    (hrb : snap'.roleBindings.Perm snap.roleBindings)
    (hcrb : snap'.clusterRoleBindings.Perm snap.clusterRoleBindings) :
    (∀ p, p ∈ ResolveEffectivePermissions subject snap ↔
      contributesPair subject snap p) ∧
    ResolveEffectivePermissions subject snap' =
      ResolveEffectivePermissions subject snap := by
  refine ⟨fun p => mem_resolve subject snap p, ?_⟩
  ext p
  rw [mem_resolve, mem_resolve]
  simp only [contributesPair, hr.mem_iff, hcr.mem_iff, hrb.mem_iff,
    hcrb.mem_iff]

/-- C1 witness (spec §8 Scenario 2): a RoleBinding in namespace `default`
binds `Group/dev` via a Cluster roleRef to ClusterRole `viewer`; the
resolved set is exactly `{("default", pods get/list)}`, the membership
characterization holds, and a snapshot listing the cluster roles in the
opposite order resolves to the same set. -/
theorem resolve_effective_permissions_correct_witness :
    ((Snapshot.mk []
        [⟨"admin", [⟨["*"], ["*"], ["*"], []⟩]⟩,
         ⟨"viewer", [⟨[""], ["pods"], ["get", "list"], []⟩]⟩]
        [⟨"rb1", "default", [⟨"Group", "dev", ""⟩], ⟨.cluster, "viewer"⟩⟩]
        []).roles.Perm
      (Snapshot.mk []
        [⟨"viewer", [⟨[""], ["pods"], ["get", "list"], []⟩]⟩,
         ⟨"admin", [⟨["*"], ["*"], ["*"], []⟩]⟩]
        [⟨"rb1", "default", [⟨"Group", "dev", ""⟩], ⟨.cluster, "viewer"⟩⟩]
        []).roles ∧
     (Snapshot.mk []
        [⟨"admin", [⟨["*"], ["*"], ["*"], []⟩]⟩,
         ⟨"viewer", [⟨[""], ["pods"], ["get", "list"], []⟩]⟩]
        [⟨"rb1", "default", [⟨"Group", "dev", ""⟩], ⟨.cluster, "viewer"⟩⟩]
        []).clusterRoles.Perm
      (Snapshot.mk []
        [⟨"viewer", [⟨[""], ["pods"], ["get", "list"], []⟩]⟩,
         ⟨"admin", [⟨["*"], ["*"], ["*"], []⟩]⟩]
        [⟨"rb1", "default", [⟨"Group", "dev", ""⟩], ⟨.cluster, "viewer"⟩⟩]
        []).clusterRoles ∧
     (Snapshot.mk []
        [⟨"admin", [⟨["*"], ["*"], ["*"], []⟩]⟩,
         ⟨"viewer", [⟨[""], ["pods"], ["get", "list"], []⟩]⟩]
        [⟨"rb1", "default", [⟨"Group", "dev", ""⟩], ⟨.cluster, "viewer"⟩⟩]
        []).roleBindings.Perm
      (Snapshot.mk []
        [⟨"viewer", [⟨[""], ["pods"], ["get", "list"], []⟩]⟩,
         ⟨"admin", [⟨["*"], ["*"], ["*"], []⟩]⟩]
        [⟨"rb1", "default", [⟨"Group", "dev", ""⟩], ⟨.cluster, "viewer"⟩⟩]
        []).roleBindings ∧
     (Snapshot.mk []
        [⟨"admin", [⟨["*"], ["*"], ["*"], []⟩]⟩,
         ⟨"viewer", [⟨[""], ["pods"], ["get", "list"], []⟩]⟩]
        [⟨"rb1", "default", [⟨"Group", "dev", ""⟩], ⟨.cluster, "viewer"⟩⟩]
        []).clusterRoleBindings.Perm
      (Snapshot.mk []
        [⟨"viewer", [⟨[""], ["pods"], ["get", "list"], []⟩]⟩,
         ⟨"admin", [⟨["*"], ["*"], ["*"], []⟩]⟩]
        [⟨"rb1", "default", [⟨"Group", "dev", ""⟩], ⟨.cluster, "viewer"⟩⟩]
        []).clusterRoleBindings) ∧
    ((∀ p, p ∈ ResolveEffectivePermissions ⟨"Group", "dev", ""⟩
        (Snapshot.mk []
          [⟨"viewer", [⟨[""], ["pods"], ["get", "list"], []⟩]⟩,
           ⟨"admin", [⟨["*"], ["*"], ["*"], []⟩]⟩]
          [⟨"rb1", "default", [⟨"Group", "dev", ""⟩], ⟨.cluster, "viewer"⟩⟩]
          []) ↔
      contributesPair ⟨"Group", "dev", ""⟩
        (Snapshot.mk []
          [⟨"viewer", [⟨[""], ["pods"], ["get", "list"], []⟩]⟩,
           ⟨"admin", [⟨["*"], ["*"], ["*"], []⟩]⟩]
          [⟨"rb1", "default", [⟨"Group", "dev", ""⟩], ⟨.cluster, "viewer"⟩⟩]
          []) p) ∧
     ResolveEffectivePermissions ⟨"Group", "dev", ""⟩
        (Snapshot.mk []
          [⟨"admin", [⟨["*"], ["*"], ["*"], []⟩]⟩,
           ⟨"viewer", [⟨[""], ["pods"], ["get", "list"], []⟩]⟩]
          [⟨"rb1", "default", [⟨"Group", "dev", ""⟩], ⟨.cluster, "viewer"⟩⟩]
          []) =
      ResolveEffectivePermissions ⟨"Group", "dev", ""⟩
        (Snapshot.mk []
          [⟨"viewer", [⟨[""], ["pods"], ["get", "list"], []⟩]⟩,
           ⟨"admin", [⟨["*"], ["*"], ["*"], []⟩]⟩]
          [⟨"rb1", "default", [⟨"Group", "dev", ""⟩], ⟨.cluster, "viewer"⟩⟩]
          [])) ∧
    ResolveEffectivePermissions ⟨"Group", "dev", ""⟩
        (Snapshot.mk []
          [⟨"viewer", [⟨[""], ["pods"], ["get", "list"], []⟩]⟩,
           ⟨"admin", [⟨["*"], ["*"], ["*"], []⟩]⟩]
          [⟨"rb1", "default", [⟨"Group", "dev", ""⟩], ⟨.cluster, "viewer"⟩⟩]
          []) =
      {("default", ⟨[""], ["pods"], ["get", "list"], []⟩)} := by
  refine ⟨⟨by decide, by decide, by decide, by decide⟩, ?_, by decide⟩
  exact resolve_effective_permissions_correct ⟨"Group", "dev", ""⟩ _ _
    (by decide) (by decide) (by decide) (by decide)
